import Mathlib

/-!
Shallow embedding of the scope primitive (`src/scope/mod.rs`) and the slice
parallel-iterator producers (`src/par_iter/slice.rs`) of a work-stealing
fork-join library, together with theorems settling the specification claims.

Conventions of the embedding:
* `usize` values are `Nat` reduced modulo `2 ^ 64` exactly where the Rust
  code performs wrapping atomic arithmetic (`fetch_add` / `fetch_sub`).
* Panic payloads are an abstract type `P`; a Rust function that can panic is
  modelled with `Option` / `Except` (`none` / `.error` = panic or abort).
* Rust slices are Lean `List`s.
-/

set_option maxRecDepth 4000

namespace Rayon

/-- The modulus of `usize` arithmetic (64-bit platform). -/
def usizeMod : Nat := 2 ^ 64

/-- The shared state of a `Scope<'scope>` (src/scope/mod.rs, lines 15-37):
the live-jobs counter (`AtomicUsize`, initialized to 1), the debug-build
leak counter, and the panic slot (`AtomicPtr`, null = `none`).  The mutex
and condition variable carry no data; notification is reported as a `Bool`
by the operations below. -/
structure ScopeState (P : Type) where
  counter : Nat
  leakCounter : Nat
  panic : Option P
deriving DecidableEq

/-- The scope state allocated at the top of `scope()` (lines 215-222):
counter = 1 (accounting for `op` itself), leak counter = 0, panic slot null. -/
def scopeInit (P : Type) : ScopeState P :=
  ⟨1, 0, none⟩

/-- `Scope::job_completed_ok` (lines 271-293): `fetch_sub(1)` on the counter
(wrapping, as `AtomicUsize::fetch_sub` does), and when the pre-decrement
value was 1, notify the condition variable (the returned `Bool`). -/
def job_completed_ok {P : Type} (s : ScopeState P) : ScopeState P × Bool :=
  let old := s.counter
  ({ s with counter := (s.counter + (usizeMod - 1)) % usizeMod }, old == 1)

/-- `Scope::job_panicked` (lines 260-269): compare-and-swap the panic slot
from null to the new payload — the first panic wins, later payloads are
dropped — then call `job_completed_ok`. -/
def job_panicked {P : Type} (s : ScopeState P) (err : P) : ScopeState P × Bool :=
  let s1 : ScopeState P :=
    match s.panic with
    | none => { s with panic := some err }
    | some _ => s
  job_completed_ok s1

/-- `Scope::block_till_jobs_complete` (lines 295-314): wait on the condition
variable until the counter reaches 0, then swap the panic slot with null and,
if a payload was stored, resume unwinding with it, else return the result.
`none` models "the wait has not finished" (counter still positive). -/
def block_till_jobs_complete {P R : Type} (s : ScopeState P) (r : R) :
    Option (Except P R × ScopeState P) :=
  if s.counter = 0 then
    match s.panic with
    | some p => some (Except.error p, { s with panic := none })
    | none => some (Except.ok r, { s with panic := none })
  else
    none

/-- One atomic operation on a scope's shared state, as performed by the code:
a `Scope::spawn` counter increment, a successful job completion, or a job
panic.  A trace of these actions is the linearized order in which the jobs of
one scope touched the shared state. -/
inductive ScopeAction (P : Type) where
  | spawn
  | completedOk
  | panicked (payload : P)
deriving DecidableEq

/-- Effect of one action on the scope state.  `spawn` performs the
`fetch_add(1)` and the `assert!(old_value > 0)` of `Scope::spawn`
(lines 245-246) — `none` models the fatal assertion failure — followed by
the `job_created` leak-counter increment inside `HeapJob::new` (line 342);
the completion actions are `job_completed_ok` / `job_panicked`. -/
def applyAction {P : Type} (s : ScopeState P) : ScopeAction P → Option (ScopeState P)
  | ScopeAction.spawn =>
      let old := s.counter
      if old = 0 then
        none
      else
        some { s with counter := (s.counter + 1) % usizeMod,
                      leakCounter := (s.leakCounter + 1) % usizeMod }
  | ScopeAction.completedOk => some (job_completed_ok s).1
  | ScopeAction.panicked p => some (job_panicked s p).1

/-- Run a trace of scope actions from a starting state. -/
def runTrace {P : Type} (s : ScopeState P) : List (ScopeAction P) → Option (ScopeState P)
  | [] => some s
  | a :: rest =>
    match applyAction s a with
    | none => none
    | some s' => runTrace s' rest

/-- Number of `spawn` actions in a trace. -/
def numSpawns {P : Type} : List (ScopeAction P) → Nat
  | [] => 0
  | ScopeAction.spawn :: rest => numSpawns rest + 1
  | ScopeAction.completedOk :: rest => numSpawns rest
  | ScopeAction.panicked _ :: rest => numSpawns rest

/-- Number of completion actions (ok or panicked) in a trace. -/
def numCompletions {P : Type} : List (ScopeAction P) → Nat
  | [] => 0
  | ScopeAction.spawn :: rest => numCompletions rest
  | ScopeAction.completedOk :: rest => numCompletions rest + 1
  | ScopeAction.panicked _ :: rest => numCompletions rest + 1

/-- The panic payloads of a trace, in order. -/
def panicPayloads {P : Type} : List (ScopeAction P) → List P
  | [] => []
  | ScopeAction.spawn :: rest => panicPayloads rest
  | ScopeAction.completedOk :: rest => panicPayloads rest
  | ScopeAction.panicked p :: rest => p :: panicPayloads rest

/-- The payload held by the panic slot after a trace, starting from slot
contents `cur`: the first payload wins, as in `job_panicked`. -/
def firstPanic {P : Type} (cur : Option P) : List (ScopeAction P) → Option P
  | [] => cur
  | ScopeAction.spawn :: rest => firstPanic cur rest
  | ScopeAction.completedOk :: rest => firstPanic cur rest
  | ScopeAction.panicked p :: rest =>
      firstPanic (match cur with | none => some p | some q => some q) rest

theorem usizeMod_pos : 0 < usizeMod := by
  norm_num [usizeMod]

/-- Wrapping decrement is an exact decrement on values in `[1, usizeMod)`. -/
theorem wrapDec_eq (x : Nat) (h1 : 1 ≤ x) (h2 : x < usizeMod) :
    (x + (usizeMod - 1)) % usizeMod = x - 1 := by
  have hU := usizeMod_pos
  have hx : x + (usizeMod - 1) = (x - 1) + usizeMod := by omega
  rw [hx, Nat.add_mod_right, Nat.mod_eq_of_lt (by omega)]

theorem job_completed_ok_mk {P : Type} (c l : Nat) (pan : Option P) :
    job_completed_ok (⟨c, l, pan⟩ : ScopeState P) =
      (⟨(c + (usizeMod - 1)) % usizeMod, l, pan⟩, c == 1) := rfl

theorem applyAction_spawn {P : Type} (c l : Nat) (pan : Option P) (h : c ≠ 0) :
    applyAction (⟨c, l, pan⟩ : ScopeState P) ScopeAction.spawn =
      some ⟨(c + 1) % usizeMod, (l + 1) % usizeMod, pan⟩ := by
  simp only [applyAction]
  rw [if_neg h]

theorem applyAction_completedOk {P : Type} (c l : Nat) (pan : Option P) :
    applyAction (⟨c, l, pan⟩ : ScopeState P) ScopeAction.completedOk =
      some ⟨(c + (usizeMod - 1)) % usizeMod, l, pan⟩ := rfl

theorem applyAction_panicked_none {P : Type} (c l : Nat) (p : P) :
    applyAction (⟨c, l, none⟩ : ScopeState P) (ScopeAction.panicked p) =
      some ⟨(c + (usizeMod - 1)) % usizeMod, l, some p⟩ := rfl

theorem applyAction_panicked_some {P : Type} (c l : Nat) (q p : P) :
    applyAction (⟨c, l, some q⟩ : ScopeState P) (ScopeAction.panicked p) =
      some ⟨(c + (usizeMod - 1)) % usizeMod, l, some q⟩ := rfl

theorem runTrace_cons_some {P : Type} {s s' : ScopeState P} {a : ScopeAction P}
    {t : List (ScopeAction P)} (h : applyAction s a = some s') :
    runTrace s (a :: t) = runTrace s' t := by
  show (match applyAction s a with
        | none => none
        | some s2 => runTrace s2 t) = runTrace s' t
  rw [h]

theorem numSpawns_take_le {P : Type} :
    ∀ (t : List (ScopeAction P)) (n : Nat), numSpawns (List.take n t) ≤ numSpawns t := by
  intro t
  induction t with
  | nil => intro n; simp [numSpawns]
  | cons a rest ih =>
    intro n
    cases n with
    | zero => exact Nat.zero_le _
    | succ n =>
      cases a <;>
        · simp only [List.take_succ_cons, numSpawns]
          have := ih n
          omega

theorem firstPanic_some_eq {P : Type} :
    ∀ (t : List (ScopeAction P)) (q : P), firstPanic (some q) t = some q := by
  intro t
  induction t with
  | nil => intro q; rfl
  | cons a rest ih => intro q; cases a <;> exact ih q

theorem firstPanic_none_eq {P : Type} :
    ∀ t : List (ScopeAction P), firstPanic (none : Option P) t = (panicPayloads t).head? := by
  intro t
  induction t with
  | nil => rfl
  | cons a rest ih =>
    cases a with
    | spawn => exact ih
    | completedOk => exact ih
    | panicked p => exact firstPanic_some_eq rest p

/-- Exact effect of a trace on the scope's shared state.  The positivity side
condition on every proper prefix says the counter is still positive in front
of every action; the real scheduler guarantees it, because every completion
is preceded by the matching spawn and `op` itself holds one counter unit
until the end. -/
theorem runTrace_spec {P : Type} :
    ∀ (t : List (ScopeAction P)) (c l : Nat) (pan : Option P),
      c + numSpawns t < usizeMod →
      l + numSpawns t < usizeMod →
      (∀ n, n < t.length →
        numCompletions (List.take n t) + 1 ≤ c + numSpawns (List.take n t)) →
      runTrace ⟨c, l, pan⟩ t =
        some ⟨c + numSpawns t - numCompletions t, l + numSpawns t, firstPanic pan t⟩ := by
  intro t
  induction t with
  | nil =>
    intro c l pan _ _ _
    simp [runTrace, numSpawns, numCompletions, firstPanic]
  | cons a rest ih =>
    intro c l pan hb1 hb2 hpre
    have hc1 : 1 ≤ c := by
      have h0 := hpre 0 (by simp)
      simpa [numCompletions, numSpawns] using h0
    have hsple : numSpawns rest ≤ numSpawns (a :: rest) := by
      cases a <;> simp [numSpawns]
    have hcU : c < usizeMod := by omega
    cases a with
    | spawn =>
      have hspawn : numSpawns (ScopeAction.spawn :: rest) = numSpawns rest + 1 := rfl
      have hb1' : c + 1 + numSpawns rest < usizeMod := by omega
      have hb2' : l + 1 + numSpawns rest < usizeMod := by omega
      have hpre2 : ∀ n, n < rest.length →
          numCompletions (List.take n rest) + 1 ≤ c + 1 + numSpawns (List.take n rest) := by
        intro n hn
        have h2 := hpre (n + 1) (by simpa using Nat.succ_lt_succ hn)
        simp only [List.take_succ_cons, numSpawns, numCompletions] at h2
        omega
      have hrun : runTrace (⟨c, l, pan⟩ : ScopeState P) (ScopeAction.spawn :: rest) =
          runTrace (⟨c + 1, l + 1, pan⟩ : ScopeState P) rest := by
        refine runTrace_cons_some ?_
        rw [applyAction_spawn c l pan (by omega),
            Nat.mod_eq_of_lt (show c + 1 < usizeMod by omega),
            Nat.mod_eq_of_lt (show l + 1 < usizeMod by omega)]
      rw [hrun, ih (c + 1) (l + 1) pan hb1' hb2' hpre2]
      have e1 : c + 1 + numSpawns rest - numCompletions rest =
          c + numSpawns (ScopeAction.spawn :: rest) -
            numCompletions (ScopeAction.spawn :: rest) := by
        simp only [numSpawns, numCompletions]
        omega
      have e2 : l + 1 + numSpawns rest = l + numSpawns (ScopeAction.spawn :: rest) := by
        simp only [numSpawns]
        omega
      rw [e1, e2]
      rfl
    | completedOk =>
      have hb1' : c - 1 + numSpawns rest < usizeMod := by omega
      have hb2' : l + numSpawns rest < usizeMod := by omega
      have hpre2 : ∀ n, n < rest.length →
          numCompletions (List.take n rest) + 1 ≤ c - 1 + numSpawns (List.take n rest) := by
        intro n hn
        have h2 := hpre (n + 1) (by simpa using Nat.succ_lt_succ hn)
        simp only [List.take_succ_cons, numSpawns, numCompletions] at h2
        omega
      have hrun : runTrace (⟨c, l, pan⟩ : ScopeState P) (ScopeAction.completedOk :: rest) =
          runTrace (⟨c - 1, l, pan⟩ : ScopeState P) rest := by
        refine runTrace_cons_some ?_
        rw [applyAction_completedOk, wrapDec_eq c hc1 hcU]
      rw [hrun, ih (c - 1) l pan hb1' hb2' hpre2]
      have e1 : c - 1 + numSpawns rest - numCompletions rest =
          c + numSpawns (ScopeAction.completedOk :: rest) -
            numCompletions (ScopeAction.completedOk :: rest) := by
        simp only [numSpawns, numCompletions]
        omega
      rw [e1]
      rfl
    | panicked p =>
      have hb1' : c - 1 + numSpawns rest < usizeMod := by omega
      have hb2' : l + numSpawns rest < usizeMod := by omega
      have hpre2 : ∀ n, n < rest.length →
          numCompletions (List.take n rest) + 1 ≤ c - 1 + numSpawns (List.take n rest) := by
        intro n hn
        have h2 := hpre (n + 1) (by simpa using Nat.succ_lt_succ hn)
        simp only [List.take_succ_cons, numSpawns, numCompletions] at h2
        omega
      have e1 : c - 1 + numSpawns rest - numCompletions rest =
          c + numSpawns (ScopeAction.panicked p :: rest) -
            numCompletions (ScopeAction.panicked p :: rest) := by
        simp only [numSpawns, numCompletions]
        omega
      cases pan with
      | none =>
        have hrun : runTrace (⟨c, l, none⟩ : ScopeState P)
            (ScopeAction.panicked p :: rest) =
            runTrace (⟨c - 1, l, some p⟩ : ScopeState P) rest := by
          refine runTrace_cons_some ?_
          rw [applyAction_panicked_none, wrapDec_eq c hc1 hcU]
        rw [hrun, ih (c - 1) l (some p) hb1' hb2' hpre2, e1]
        rfl
      | some q =>
        have hrun : runTrace (⟨c, l, some q⟩ : ScopeState P)
            (ScopeAction.panicked p :: rest) =
            runTrace (⟨c - 1, l, some q⟩ : ScopeState P) rest := by
          refine runTrace_cons_some ?_
          rw [applyAction_panicked_some, wrapDec_eq c hc1 hcU]
        rw [hrun, ih (c - 1) l (some q) hb1' hb2' hpre2, e1]
        rfl

theorem wrap_one_eq_zero : (1 + (usizeMod - 1)) % usizeMod = 0 := by
  have hU := usizeMod_pos
  rw [show 1 + (usizeMod - 1) = usizeMod by omega, Nat.mod_self]

/-- C2: a terminating `scope(op)` call, seen as the linearized trace of the
counter/panic-slot operations of `op` and its spawned jobs (`hterm`: every
spawned job and `op` itself completed exactly once; `horder`: every completion
is preceded by the matching spawn, so strictly fewer completions than
`spawns + 1` have happened at every proper point of the trace).  The scope's
wait does not finish at any proper point of the trace (the counter is still
positive, so `block_till_jobs_complete` keeps waiting); at the end the counter
is 0, and if exactly one job panicked with payload `p`, the slot holds `p` and
the wait re-raises exactly `p`, while if no job panicked the wait returns
`op`'s result `r` without unwinding. -/
theorem scope_reraises_single_panic {P R : Type} (t : List (ScopeAction P)) (r : R)
    (hterm : numCompletions t = numSpawns t + 1)
    (horder : ∀ n, n < t.length →
      numCompletions (List.take n t) ≤ numSpawns (List.take n t))
    (hbound : 1 + numSpawns t < usizeMod) :
    ∃ s, runTrace (scopeInit P) t = some s ∧
      s.counter = 0 ∧
      (∀ n, n < t.length → ∃ s', runTrace (scopeInit P) (List.take n t) = some s' ∧
          0 < s'.counter ∧ block_till_jobs_complete s' r = none) ∧
      (∀ p : P, panicPayloads t = [p] →
          s.panic = some p ∧
          block_till_jobs_complete s r =
            some (Except.error p, { s with panic := none })) ∧
      (panicPayloads t = [] →
          s.panic = none ∧
          block_till_jobs_complete s r =
            some (Except.ok r, { s with panic := none })) := by
  have hpr : ∀ n, n < t.length →
      numCompletions (List.take n t) + 1 ≤ 1 + numSpawns (List.take n t) := by
    intro n hn
    have := horder n hn
    omega
  have hmain := runTrace_spec t 1 0 none (by omega) (by omega) hpr
  have hcnt : 1 + numSpawns t - numCompletions t = 0 := by omega
  rw [hcnt, Nat.zero_add] at hmain
  refine ⟨⟨0, numSpawns t, firstPanic (none : Option P) t⟩, hmain, rfl, ?_, ?_, ?_⟩
  · intro n hn
    have hlen : List.length (List.take n t) = n := by
      rw [List.length_take]
      omega
    have hprefix : ∀ m, m < (List.take n t).length →
        numCompletions (List.take m (List.take n t)) + 1 ≤
          1 + numSpawns (List.take m (List.take n t)) := by
      intro m hm
      rw [hlen] at hm
      rw [List.take_take, Nat.min_eq_left (Nat.le_of_lt hm)]
      exact hpr m (by omega)
    have hb1 : 1 + numSpawns (List.take n t) < usizeMod := by
      have := numSpawns_take_le t n
      omega
    have hb2 : 0 + numSpawns (List.take n t) < usizeMod := by
      have := numSpawns_take_le t n
      omega
    have hrunn := runTrace_spec (List.take n t) 1 0 none hb1 hb2 hprefix
    have hpos : 0 < 1 + numSpawns (List.take n t) - numCompletions (List.take n t) := by
      have := horder n hn
      omega
    refine ⟨_, hrunn, hpos, ?_⟩
    obtain ⟨cnt, hcnt2⟩ : ∃ cnt,
        1 + numSpawns (List.take n t) - numCompletions (List.take n t) = cnt + 1 :=
      ⟨1 + numSpawns (List.take n t) - numCompletions (List.take n t) - 1, by omega⟩
    show block_till_jobs_complete
      (⟨1 + numSpawns (List.take n t) - numCompletions (List.take n t),
        0 + numSpawns (List.take n t), firstPanic none (List.take n t)⟩ : ScopeState P) r
        = none
    rw [hcnt2]
    rfl
  · intro p hp
    have hfp : firstPanic (none : Option P) t = some p := by
      rw [firstPanic_none_eq, hp]
      rfl
    refine ⟨hfp, ?_⟩
    show block_till_jobs_complete
      (⟨0, numSpawns t, firstPanic (none : Option P) t⟩ : ScopeState P) r = _
    rw [hfp]
    rfl
  · intro hp
    have hfp : firstPanic (none : Option P) t = none := by
      rw [firstPanic_none_eq, hp]
      rfl
    refine ⟨hfp, ?_⟩
    show block_till_jobs_complete
      (⟨0, numSpawns t, firstPanic (none : Option P) t⟩ : ScopeState P) r = _
    rw [hfp]
    rfl

/-- Witness for C2: a scope whose `op` spawned two jobs; the first panicked
with payload 5, the second completed, then `op`'s own completion closed the
scope.  The wait stays blocked on every proper point, then re-raises 5. -/
theorem scope_reraises_single_panic_witness :
    ∃ s, runTrace (scopeInit Nat)
        [ScopeAction.spawn, ScopeAction.spawn, ScopeAction.panicked 5,
         ScopeAction.completedOk, ScopeAction.completedOk] = some s ∧
      s.counter = 0 ∧
      (∀ n, n < (5 : Nat) → ∃ s', runTrace (scopeInit Nat)
          (List.take n [ScopeAction.spawn, ScopeAction.spawn, ScopeAction.panicked 5,
            ScopeAction.completedOk, ScopeAction.completedOk]) = some s' ∧
          0 < s'.counter ∧ block_till_jobs_complete s' (0 : Nat) = none) ∧
      (∀ p : Nat, panicPayloads
          [ScopeAction.spawn, ScopeAction.spawn, ScopeAction.panicked 5,
           ScopeAction.completedOk, ScopeAction.completedOk] = [p] →
          s.panic = some p ∧
          block_till_jobs_complete s (0 : Nat) =
            some (Except.error p, { s with panic := none })) ∧
      (panicPayloads [ScopeAction.spawn, ScopeAction.spawn, ScopeAction.panicked 5,
          ScopeAction.completedOk, ScopeAction.completedOk] = ([] : List Nat) →
          s.panic = none ∧
          block_till_jobs_complete s (0 : Nat) =
            some (Except.ok 0, { s with panic := none })) :=
  scope_reraises_single_panic
    [ScopeAction.spawn, ScopeAction.spawn, ScopeAction.panicked 5,
     ScopeAction.completedOk, ScopeAction.completedOk] 0
    (by decide)
    (by decide)
    (by decide)

/-- What one `scope(op)` call produced: the value returned (or the panic it
unwound with), the scope state at exit, and two instrumentation flags — did
the `scope` function itself run the `scope.job_completed_ok()` call of line
225, and did it run `block_till_jobs_complete` (line 226). -/
structure ScopeOutcome (P R : Type) where
  result : Except P R
  final : ScopeState P
  opCompletedCalled : Bool
  waitedForJobs : Bool

/-- The `scope` function body (lines 212-228).  The closure `op` is modelled
by the linearized trace `opActs` of counter/panic-slot operations performed
while `op` was on the stack (its spawns, and completions of already-spawned
jobs run concurrently) plus `op`'s own outcome `opResult`.  The code runs
`let result = op(&scope);` with no unwinding catch around it, so when `op`
panics (`Except.error`) the panic propagates out of `scope` at once and
lines 225-226 never run; on a normal return it runs `job_completed_ok` and
then `block_till_jobs_complete`.  `none` models an execution that aborts
(spawn assertion failure) or never returns (the wait cannot finish because
the counter is still positive and no job is left to decrement it in this
sequential model). -/
def scopeFinish {P R : Type} (s1 : ScopeState P) (r : R) : Option (ScopeOutcome P R) :=
  Option.map (fun rs => ⟨rs.1, rs.2, true, true⟩)
    (block_till_jobs_complete (job_completed_ok s1).1 r)

def scopeModel {P R : Type} (opActs : List (ScopeAction P)) (opResult : Except P R) :
    Option (ScopeOutcome P R) :=
  match runTrace (scopeInit P) opActs with
  | none => none
  | some s1 =>
    match opResult with
    | Except.error p => some ⟨Except.error p, s1, false, false⟩
    | Except.ok r => scopeFinish s1 r

/-- C1 counterexample: a `scope(op)` call whose `op` panics with payload 7
while having spawned nothing.  The panic propagates out of `scope` with the
panic slot still empty (`final.panic = none`, the payload was never stored),
`job_completed_ok` was never called (`opCompletedCalled = false`, the counter
is still 1), and `scope` did not wait for jobs (`waitedForJobs = false`) —
contradicting the claim that `scope` catches the panic into the panic slot,
calls `job_completed_ok` on panic exit, and still waits. -/
theorem scope_does_not_catch_op_panic :
    scopeModel (P := Nat) (R := Nat) [] (Except.error 7) =
      some ⟨Except.error 7, ⟨1, 0, none⟩, false, false⟩ ∧
    (scopeModel (P := Nat) (R := Nat) [] (Except.error 7)).map
        (fun o => o.opCompletedCalled) = some false ∧
    (scopeModel (P := Nat) (R := Nat) [] (Except.error 7)).map
        (fun o => o.final.panic) = some none ∧
    (scopeModel (P := Nat) (R := Nat) [] (Except.error 7)).map
        (fun o => o.waitedForJobs) = some false :=
  ⟨rfl, rfl, rfl, rfl⟩

/-- C1 (amended): `scope(op)` runs `op` without catching panics.  When `op`
returns normally, `scope` calls `job_completed_ok` exactly once (pairing the
counter's initial 1) and then waits; when `op` panics, the panic unwinds out
of `scope` directly — the payload is not stored in the panic slot, the
pairing `job_completed_ok` call never happens, and `scope` does not wait for
spawned jobs. -/
theorem scope_op_exit_behavior {P R : Type} (opActs : List (ScopeAction P))
    (c1 l1 : Nat) (pan1 : Option P)
    (h : runTrace (scopeInit P) opActs = some ⟨c1, l1, pan1⟩) :
    (∀ p : P, scopeModel (R := R) opActs (Except.error p) =
        some ⟨Except.error p, ⟨c1, l1, pan1⟩, false, false⟩) ∧
    (∀ r : R, c1 = 1 →
        scopeModel opActs (Except.ok r) =
          some ⟨pan1.elim (Except.ok r) Except.error, ⟨0, l1, none⟩, true, true⟩) := by
  constructor
  · intro p
    unfold scopeModel
    rw [h]
  · intro r hc
    subst hc
    have h1 : (job_completed_ok (⟨1, l1, pan1⟩ : ScopeState P)).1 =
        (⟨(1 + (usizeMod - 1)) % usizeMod, l1, pan1⟩ : ScopeState P) := by
      rw [job_completed_ok_mk]
    have h2 : (job_completed_ok (⟨1, l1, pan1⟩ : ScopeState P)).1 =
        (⟨0, l1, pan1⟩ : ScopeState P) := by
      rw [h1, wrap_one_eq_zero]
    have hblock : block_till_jobs_complete (⟨0, l1, pan1⟩ : ScopeState P) r =
        some (pan1.elim (Except.ok r) Except.error, (⟨0, l1, none⟩ : ScopeState P)) := by
      cases pan1 <;> rfl
    have hfin : scopeFinish (⟨1, l1, pan1⟩ : ScopeState P) r =
        some ⟨pan1.elim (Except.ok r) Except.error, ⟨0, l1, none⟩, true, true⟩ := by
      unfold scopeFinish
      rw [h2, hblock]
      rfl
    have hok : scopeModel opActs (Except.ok r) =
        scopeFinish (⟨1, l1, pan1⟩ : ScopeState P) r := by
      unfold scopeModel
      rw [h]
    rw [hok, hfin]

/-- Witness for C1 (amended): with an empty `op` trace, a panicking `op`
unwinds untouched and an `op` returning 3 completes, closes the counter and
returns 3. -/
theorem scope_op_exit_behavior_witness :
    scopeModel (R := Nat) ([] : List (ScopeAction Nat)) (Except.error 7) =
        some ⟨Except.error 7, ⟨1, 0, none⟩, false, false⟩ ∧
    scopeModel ([] : List (ScopeAction Nat)) (Except.ok 3) =
        some ⟨Except.ok 3, ⟨0, 0, none⟩, true, true⟩ :=
  ⟨(scope_op_exit_behavior [] 1 0 none rfl).1 7,
   (scope_op_exit_behavior [] 1 0 none rfl).2 3 rfl⟩

/-- C5: the code maintains `leak_counter` (incremented by `job_created` in
`HeapJob::new`; a debug `Drop` impl would decrement it) but `scope` performs
no assertion on it before returning — contradicting both the claim and the
code's own comment on the `leak_counter` field ("When the scope is closed we
assert that it is zero").  Failing input: a scope whose body spawns one job
that a worker then completes, with `op` returning 3.  The call returns
normally (`Except.ok 3`) with `leak_counter = 1`: the executed `HeapJob` was
never dropped (`HeapJob::execute` transmutes the `Box` into a raw reference
and never reclaims it) and no assertion fired. -/
theorem scope_no_leak_assert :
    scopeModel (P := Nat) (R := Nat) [ScopeAction.spawn, ScopeAction.completedOk]
        (Except.ok 3) =
      some ⟨Except.ok 3, ⟨0, 1, none⟩, true, true⟩ ∧
    (scopeModel (P := Nat) (R := Nat) [ScopeAction.spawn, ScopeAction.completedOk]
        (Except.ok 3)).map (fun o => o.final.leakCounter) = some 1 :=
  ⟨rfl, rfl⟩

/-- C6: for every scope, the first `job_panicked` call stores its payload in
the panic slot (CAS from null) and every later call leaves the stored payload
in place (the loser's payload is dropped); and every call, winner or loser,
decrements the live-jobs counter and performs the notification exactly as
`job_completed_ok` does, so a panicking job is accounted like a successful
one. -/
theorem job_panicked_first_wins {P : Type} (s : ScopeState P) (p : P) :
    (job_panicked s p).1.panic = some (s.panic.getD p) ∧
    (job_panicked s p).1.counter = (job_completed_ok s).1.counter ∧
    (job_panicked s p).1.leakCounter = (job_completed_ok s).1.leakCounter ∧
    (job_panicked s p).2 = (job_completed_ok s).2 := by
  obtain ⟨c, l, pan⟩ := s
  cases pan with
  | none => exact ⟨rfl, rfl, rfl, rfl⟩
  | some q => exact ⟨rfl, rfl, rfl, rfl⟩

/-- What executing one `HeapJob` with mode `Abort` did: the scope state after
the call, and instrumentation — did the user closure run, was the `HeapJob`
itself dropped (its `Drop` impl / `job_dropped` executed), and was the
condition variable notified. -/
structure HeapJobAbortResult (P : Type) where
  scope : ScopeState P
  ranUserClosure : Bool
  heapJobDropped : Bool
  notifiedWaiter : Bool
deriving DecidableEq

/-- `HeapJob::execute`, `JobMode::Abort` arm (lines 394-396).  `execute`
receives the raw pointer and transmutes it to a shared reference (line 377,
marked `// FIXME`); the `Abort` arm only calls `job_completed_ok` on the
scope.  The `Box` created in `Scope::spawn` was leaked into the raw pointer
by `as_job_ref` (line 350) and is never reconstructed, so the `HeapJob` is
never dropped: the closure in `func` and the heap allocation are leaked, and
`job_dropped` (the debug leak-counter decrement) never runs. -/
def heapJob_execute_abort {P : Type} (s : ScopeState P) : HeapJobAbortResult P :=
  let sc := job_completed_ok s
  ⟨sc.1, false, false, sc.2⟩

/-- C3 counterexample: aborting a `HeapJob` on a scope whose counter is 1 and
whose (debug) leak counter is 1 — i.e. this job is the only live one.  The
counter is decremented to 0 and the waiter is notified, but
`heapJobDropped = false` and the leak counter still reads 1: the heap
allocation and the owned closure were not released, contradicting the claim
that `Abort` "releases the job's resources (the heap allocation and the
owned closure)". -/
theorem heapJob_abort_does_not_free :
    heapJob_execute_abort (⟨1, 1, none⟩ : ScopeState Nat) =
      ⟨⟨0, 1, none⟩, false, false, true⟩ ∧
    (heapJob_execute_abort (⟨1, 1, none⟩ : ScopeState Nat)).heapJobDropped = false ∧
    (heapJob_execute_abort (⟨1, 1, none⟩ : ScopeState Nat)).scope.leakCounter = 1 :=
  ⟨rfl, rfl, rfl⟩

/-- C3 (amended): executing a `HeapJob` with mode `Abort` decrements the
scope's live-jobs counter via `job_completed_ok` without running the user
closure, and notifies a concurrent scope waiter exactly when this was the
last live job (pre-decrement counter 1); but it does not release the job's
resources — the `HeapJob` is never dropped and the leak counter is
unchanged. -/
theorem heapJob_abort_spec {P : Type} (s : ScopeState P)
    (h1 : 1 ≤ s.counter) (h2 : s.counter < usizeMod) :
    (heapJob_execute_abort s).ranUserClosure = false ∧
    (heapJob_execute_abort s).heapJobDropped = false ∧
    (heapJob_execute_abort s).scope.counter = s.counter - 1 ∧
    (heapJob_execute_abort s).scope.leakCounter = s.leakCounter ∧
    (heapJob_execute_abort s).scope.panic = s.panic ∧
    ((heapJob_execute_abort s).notifiedWaiter = true ↔ s.counter = 1) := by
  obtain ⟨c, l, pan⟩ := s
  refine ⟨rfl, rfl, ?_, rfl, rfl, ?_⟩
  · show (c + (usizeMod - 1)) % usizeMod = c - 1
    exact wrapDec_eq c h1 h2
  · show (c == 1) = true ↔ c = 1
    exact beq_iff_eq

/-- Witness for C3 (amended): aborting a heap job on a scope with counter 2
and leak counter 0 — no user code, no drop, counter decremented to 1, no
notification. -/
theorem heapJob_abort_spec_witness :
    (heapJob_execute_abort (⟨2, 0, none⟩ : ScopeState Nat)).ranUserClosure = false ∧
    (heapJob_execute_abort (⟨2, 0, none⟩ : ScopeState Nat)).heapJobDropped = false ∧
    (heapJob_execute_abort (⟨2, 0, none⟩ : ScopeState Nat)).scope.counter = 2 - 1 ∧
    (heapJob_execute_abort (⟨2, 0, none⟩ : ScopeState Nat)).scope.leakCounter = 0 ∧
    (heapJob_execute_abort (⟨2, 0, none⟩ : ScopeState Nat)).scope.panic = none ∧
    ((heapJob_execute_abort (⟨2, 0, none⟩ : ScopeState Nat)).notifiedWaiter = true ↔
      (2 : Nat) = 1) :=
  heapJob_abort_spec (⟨2, 0, none⟩ : ScopeState Nat) (by decide) (by decide)

/-- The primitive steps `Scope::spawn` performs, in program order. -/
inductive SpawnStep where
  | counterFetchAdd
  | assertOldPositive
  | boxHeapJob
  | bumpSpawnCount
  | pushLocalDeque
  | injectRegistry
deriving DecidableEq

/-- The thread-local state of a worker thread that `Scope::spawn` touches:
its `spawn_count` cell and its deque (head = bottom, where the owner pushes;
jobs are identified by an id).  A foreign caller has no worker state. -/
structure WorkerState where
  spawn_count : Nat
  deque : List Nat
deriving DecidableEq

/-- `Scope::spawn` (lines 241-258): `fetch_add(1)` on the live-jobs counter;
`assert!(old_value > 0)` (`none` = the fatal assertion failure); box the
closure into a `HeapJob` (whose `new` bumps the debug leak counter); then, if
`WorkerThread::current()` is non-null, increment its `spawn_count` and push
the `JobRef` onto its deque, else inject the `JobRef` into the registry's
injection queue.  Returns the ordered list of steps performed, the new scope
state, the new worker state and the new injection queue. -/
def ScopeState.spawn {P : Type} (s : ScopeState P) (worker : Option WorkerState)
    (injected : List Nat) (jobId : Nat) :
    Option (List SpawnStep × ScopeState P × Option WorkerState × List Nat) :=
  let old := s.counter
  let s1 : ScopeState P := { s with counter := (s.counter + 1) % usizeMod }
  if old = 0 then
    none
  else
    let s2 : ScopeState P := { s1 with leakCounter := (s1.leakCounter + 1) % usizeMod }
    match worker with
    | some w =>
        some ([SpawnStep.counterFetchAdd, SpawnStep.assertOldPositive,
               SpawnStep.boxHeapJob, SpawnStep.bumpSpawnCount, SpawnStep.pushLocalDeque],
              s2, some ⟨w.spawn_count + 1, jobId :: w.deque⟩, injected)
    | none =>
        some ([SpawnStep.counterFetchAdd, SpawnStep.assertOldPositive,
               SpawnStep.boxHeapJob, SpawnStep.injectRegistry],
              s2, none, injected ++ [jobId])

/-- C4: on a live scope (counter > 0), `Scope::spawn` performs, in order, the
counter `fetch_add(1)`, the assertion that the pre-increment value was
positive, the boxing of the closure into a `HeapJob`, and the publication —
on a worker thread, bumping `spawn_count` by one and pushing the job onto the
worker's deque with the injection queue untouched; on a foreign thread,
appending the job to the registry injection queue without touching any
`spawn_count`.  When the counter has already reached 0, the assertion fails
(a fatal programmer error, `none`). -/
theorem scope_spawn_spec {P : Type} (s : ScopeState P) (w : WorkerState)
    (injected : List Nat) (jobId : Nat) (h : 0 < s.counter) :
    s.spawn (some w) injected jobId =
      some ([SpawnStep.counterFetchAdd, SpawnStep.assertOldPositive,
             SpawnStep.boxHeapJob, SpawnStep.bumpSpawnCount, SpawnStep.pushLocalDeque],
            ⟨(s.counter + 1) % usizeMod, (s.leakCounter + 1) % usizeMod, s.panic⟩,
            some ⟨w.spawn_count + 1, jobId :: w.deque⟩, injected) ∧
    s.spawn none injected jobId =
      some ([SpawnStep.counterFetchAdd, SpawnStep.assertOldPositive,
             SpawnStep.boxHeapJob, SpawnStep.injectRegistry],
            ⟨(s.counter + 1) % usizeMod, (s.leakCounter + 1) % usizeMod, s.panic⟩,
            none, injected ++ [jobId]) ∧
    (∀ (l : Nat) (pan : Option P) (w' : Option WorkerState),
      (⟨0, l, pan⟩ : ScopeState P).spawn w' injected jobId = none) := by
  obtain ⟨c, l, pan⟩ := s
  have hc : c ≠ 0 := by
    simpa using Nat.pos_iff_ne_zero.mp h
  refine ⟨?_, ?_, ?_⟩
  · unfold ScopeState.spawn
    rw [if_neg hc]
  · unfold ScopeState.spawn
    rw [if_neg hc]
  · intro l' pan' w'
    cases w' <;> rfl

/-- Witness for C4: spawning job 4 on a scope with counter 5 from a worker
whose `spawn_count` is 3 and whose deque holds job 7, and from a foreign
thread with injection queue `[9]`. -/
theorem scope_spawn_spec_witness :
    (⟨5, 2, none⟩ : ScopeState Nat).spawn (some ⟨3, [7]⟩) [9] 4 =
      some ([SpawnStep.counterFetchAdd, SpawnStep.assertOldPositive,
             SpawnStep.boxHeapJob, SpawnStep.bumpSpawnCount, SpawnStep.pushLocalDeque],
            ⟨(5 + 1) % usizeMod, (2 + 1) % usizeMod, none⟩,
            some ⟨3 + 1, 4 :: [7]⟩, [9]) ∧
    (⟨5, 2, none⟩ : ScopeState Nat).spawn none [9] 4 =
      some ([SpawnStep.counterFetchAdd, SpawnStep.assertOldPositive,
             SpawnStep.boxHeapJob, SpawnStep.injectRegistry],
            ⟨(5 + 1) % usizeMod, (2 + 1) % usizeMod, none⟩,
            none, [9] ++ [4]) ∧
    (∀ (l : Nat) (pan : Option Nat) (w' : Option WorkerState),
      (⟨0, l, pan⟩ : ScopeState Nat).spawn w' [9] 4 = none) :=
  scope_spawn_spec (⟨5, 2, none⟩ : ScopeState Nat) ⟨3, [7]⟩ [9] 4 (by decide)

/-- A scope job as the worker deque discipline of `HeapJob::execute` /
`HeapJob::pop_jobs` (lines 361-391) sees it: the user closure is abstracted
by the list of jobs it spawns onto the local deque, in spawn order.  Whether
the closure returned or panicked is irrelevant here — `halt_unwinding`
catches a panic and `pop_jobs` runs in both cases (lines 386-391). -/
inductive JobTree where
  | mk (spawned : List JobTree)

/-- Worker-thread state for the deque discipline: the `spawn_count` cell and
the deque (head = bottom, where the owner pushes and pops). -/
structure WorkerDeque where
  spawn_count : Nat
  deque : List JobTree

/-- The pushes a job's closure performs, in spawn order: each `Scope::spawn`
on a worker thread increments `spawn_count` and pushes onto the bottom
(lines 251-253). -/
def pushSpawned (w : WorkerDeque) (js : List JobTree) : WorkerDeque :=
  js.foldl (fun w j => ⟨w.spawn_count + 1, j :: w.deque⟩) w

mutual

/-- `HeapJob::execute`, `JobMode::Execute` arm (lines 381-391), with no thief
interference: read `start_count = spawn_count` (line 383), run the user
closure (its spawns push onto the deque), then drain with `pop_jobs`.  The
code computes the loop bound `current_count` and performs the final
`spawn_count.set(start_count)` inside `pop_jobs` (lines 363-369); here the
bound `current - start` is computed at the call site and the final set is
applied to the drained state, which is the same composition.  `fuel` bounds
the recursion depth of nested executes; `none` = out of fuel.  Also returns
how many `execute` calls ran (this job plus every popped descendant). -/
def heapJob_execute (fuel : Nat) (j : JobTree) (w : WorkerDeque) :
    Option (WorkerDeque × Nat) :=
  match fuel with
  | 0 => none
  | fuel' + 1 =>
    match j with
    | JobTree.mk spawned =>
      let startCount := w.spawn_count
      let w1 := pushSpawned w spawned
      match pop_jobs fuel' (w1.spawn_count - startCount) w1 with
      | none => none
      | some (w2, n) => some (⟨startCount, w2.deque⟩, n + 1)
termination_by (fuel, 0)

/-- The loop of `HeapJob::pop_jobs` (lines 364-368): `k` iterations of
`for _ in start_count .. current_count`, each popping the bottom of the
deque and executing the popped job with mode `Execute`; a failed pop leaves
that iteration a no-op. -/
def pop_jobs (fuel : Nat) (k : Nat) (w : WorkerDeque) : Option (WorkerDeque × Nat) :=
  match k with
  | 0 => some (w, 0)
  | k' + 1 =>
    match w.deque with
    | [] => pop_jobs fuel k' w
    | j :: rest =>
      match heapJob_execute fuel j ⟨w.spawn_count, rest⟩ with
      | none => none
      | some (w', n) =>
        match pop_jobs fuel k' w' with
        | none => none
        | some (w'', m) => some (w'', n + m)
termination_by (fuel, k + 1)

end

mutual

/-- Number of jobs in a job tree: the job itself plus everything it
transitively spawns. -/
def jobCount : JobTree → Nat
  | JobTree.mk spawned => 1 + jobCountList spawned

/-- Total job count of a list of job trees. -/
def jobCountList : List JobTree → Nat
  | [] => 0
  | j :: rest => jobCount j + jobCountList rest

end

theorem jobCountList_append : ∀ (a b : List JobTree),
    jobCountList (a ++ b) = jobCountList a + jobCountList b := by
  intro a b
  induction a with
  | nil => simp [jobCountList]
  | cons j a ih =>
    show jobCount j + jobCountList (a ++ b) = jobCount j + jobCountList a + jobCountList b
    rw [ih]
    omega

theorem jobCountList_reverse : ∀ l : List JobTree,
    jobCountList l.reverse = jobCountList l := by
  intro l
  induction l with
  | nil => rfl
  | cons j l ih =>
    rw [List.reverse_cons, jobCountList_append, ih]
    show jobCountList l + (jobCount j + jobCountList []) = jobCount j + jobCountList l
    show jobCountList l + (jobCount j + 0) = jobCount j + jobCountList l
    omega

theorem pushSpawned_spec : ∀ (js : List JobTree) (w : WorkerDeque),
    pushSpawned w js = ⟨w.spawn_count + js.length, js.reverse ++ w.deque⟩ := by
  intro js
  induction js with
  | nil =>
    intro w
    show w = ⟨w.spawn_count + 0, [] ++ w.deque⟩
    simp
  | cons j js ih =>
    intro w
    show pushSpawned ⟨w.spawn_count + 1, j :: w.deque⟩ js = _
    rw [ih]
    simp only [WorkerDeque.mk.injEq, List.length_cons, List.reverse_cons,
      List.append_assoc, List.singleton_append]
    exact ⟨by omega, trivial⟩

theorem heapJob_execute_zero (j : JobTree) (w : WorkerDeque) :
    heapJob_execute 0 j w = none := by
  rw [heapJob_execute]

theorem heapJob_execute_succ (fuel : Nat) (spawned : List JobTree) (w : WorkerDeque) :
    heapJob_execute (fuel + 1) (JobTree.mk spawned) w =
      match pop_jobs fuel ((pushSpawned w spawned).spawn_count - w.spawn_count)
          (pushSpawned w spawned) with
      | none => none
      | some (w2, n) => some (⟨w.spawn_count, w2.deque⟩, n + 1) := by
  rw [heapJob_execute]

theorem pop_jobs_zero (fuel : Nat) (w : WorkerDeque) :
    pop_jobs fuel 0 w = some (w, 0) := by
  rw [pop_jobs]

theorem pop_jobs_succ (fuel k : Nat) (sc : Nat) (j : JobTree) (rest : List JobTree) :
    pop_jobs fuel (k + 1) ⟨sc, j :: rest⟩ =
      match heapJob_execute fuel j ⟨sc, rest⟩ with
      | none => none
      | some (w', n) =>
        match pop_jobs fuel k w' with
        | none => none
        | some (w'', m) => some (w'', n + m) := by
  rw [pop_jobs]

/-- Draining the loop of `pop_jobs`: when the top `ws.length` deque entries
are exactly `ws` and every nested execute has enough fuel, the loop pops and
executes exactly `ws`, leaving the rest `d` of the deque and the
`spawn_count` cell unchanged. -/
theorem pop_jobs_drains (fuel : Nat)
    (ihfuel : ∀ (j : JobTree) (w : WorkerDeque), sizeOf j ≤ fuel →
      heapJob_execute fuel j w = some (⟨w.spawn_count, w.deque⟩, jobCount j)) :
    ∀ (ws d : List JobTree) (sc : Nat),
      (∀ j, j ∈ ws → sizeOf j ≤ fuel) →
      pop_jobs fuel ws.length ⟨sc, ws ++ d⟩ = some (⟨sc, d⟩, jobCountList ws) := by
  intro ws
  induction ws with
  | nil =>
    intro d sc _
    rw [show (([] : List JobTree)).length = 0 from rfl, pop_jobs_zero,
        show (([] : List JobTree)) ++ d = d from rfl]
    rw [show jobCountList [] = 0 from by rw [jobCountList]]
  | cons j ws ihw =>
    intro d sc hmem
    have h1 : heapJob_execute fuel j ⟨sc, ws ++ d⟩ = some (⟨sc, ws ++ d⟩, jobCount j) :=
      ihfuel j ⟨sc, ws ++ d⟩ (hmem j (by simp))
    have h2 : pop_jobs fuel ws.length ⟨sc, ws ++ d⟩ = some (⟨sc, d⟩, jobCountList ws) :=
      ihw d sc (fun j' hj' => hmem j' (by simp [hj']))
    have h3 : jobCountList (j :: ws) = jobCount j + jobCountList ws := by
      rw [jobCountList]
    rw [show (j :: ws).length = ws.length + 1 from rfl,
        show (j :: ws) ++ d = j :: (ws ++ d) from rfl,
        pop_jobs_succ, h1]
    show (match pop_jobs fuel ws.length (⟨sc, ws ++ d⟩ : WorkerDeque) with
      | none => (none : Option (WorkerDeque × Nat))
      | some (w2, m) => some (w2, jobCount j + m)) =
      some ((⟨sc, d⟩ : WorkerDeque), jobCountList (j :: ws))
    rw [h2, h3]

/-- With fuel at least the size of the job tree, `HeapJob::execute` restores
both `spawn_count` and the deque exactly, and executes the job together with
all its transitively spawned jobs. -/
theorem heapJob_execute_restores : ∀ (fuel : Nat) (j : JobTree) (w : WorkerDeque),
    sizeOf j ≤ fuel →
    heapJob_execute fuel j w = some (⟨w.spawn_count, w.deque⟩, jobCount j) := by
  intro fuel
  induction fuel with
  | zero =>
    intro j w hj
    exfalso
    cases j with
    | mk spawned =>
      have hs : sizeOf (JobTree.mk spawned) = 1 + sizeOf spawned := by simp
      omega
  | succ fuel ih =>
    intro j w hj
    cases j with
    | mk spawned =>
      have hsz : ∀ j', j' ∈ spawned → sizeOf j' ≤ fuel := by
        intro j' hj'
        have hlt := List.sizeOf_lt_of_mem hj'
        have hs : sizeOf (JobTree.mk spawned) = 1 + sizeOf spawned := by simp
        omega
      have hdiff : (⟨w.spawn_count + spawned.length,
          spawned.reverse ++ w.deque⟩ : WorkerDeque).spawn_count - w.spawn_count =
          spawned.reverse.length := by
        show w.spawn_count + spawned.length - w.spawn_count = spawned.reverse.length
        rw [List.length_reverse]
        exact Nat.add_sub_cancel_left w.spawn_count spawned.length
      have hdrain := pop_jobs_drains fuel ih spawned.reverse w.deque
        (w.spawn_count + spawned.length)
        (fun j' hj' => hsz j' (List.mem_reverse.mp hj'))
      have hjc : jobCount (JobTree.mk spawned) = jobCountList spawned + 1 := by
        rw [jobCount]
        omega
      rw [heapJob_execute_succ, pushSpawned_spec, hdiff, hjc, ← jobCountList_reverse]
      show (match pop_jobs fuel spawned.reverse.length
          (⟨w.spawn_count + spawned.length, spawned.reverse ++ w.deque⟩ : WorkerDeque) with
        | none => none
        | some (w2, n) => some ((⟨w.spawn_count, w2.deque⟩ : WorkerDeque), n + 1)) =
        some (⟨w.spawn_count, w.deque⟩, jobCountList spawned.reverse + 1)
      rw [hdrain]

/-- C7: executing a `HeapJob` with mode `Execute` on a worker thread with no
thief interference: `spawn_count` is read at entry (`start_count`), and after
the user closure finishes, every job the closure pushed onto the local deque
(and, recursively, every job those jobs pushed) is popped and executed
directly, `spawn_count` is restored to `start_count` before `execute`
returns, and the deque at exit equals the deque at entry — the deque height
is preserved.  The returned count `jobCount j` confirms that the job and all
its transitively pushed jobs were each executed. -/
theorem heapJob_execute_preserves_deque (j : JobTree) (w : WorkerDeque) :
    heapJob_execute (sizeOf j) j w = some (⟨w.spawn_count, w.deque⟩, jobCount j) :=
  heapJob_execute_restores (sizeOf j) j w (Nat.le_refl _)

/-- `SliceProducer` (src/par_iter/slice.rs, lines 115-117).  Rust slices are
Lean lists. -/
structure SliceProducer (α : Type) where
  slice : List α
deriving DecidableEq

/-- `SliceRevProducer` (lines 119-121). -/
structure SliceRevProducer (α : Type) where
  slice : List α
deriving DecidableEq

/-- `SliceProducer::split_at` (lines 131-134): `self.slice.split_at(index)`.
`none` models the Rust panic when `index > len`. -/
def SliceProducer.split_at {α : Type} (p : SliceProducer α) (i : Nat) :
    Option (SliceProducer α × SliceProducer α) :=
  if i ≤ p.slice.length then some (⟨p.slice.take i⟩, ⟨p.slice.drop i⟩) else none

/-- `SliceProducer::rev` (lines 136-140). -/
def SliceProducer.rev {α : Type} (p : SliceProducer α) : SliceRevProducer α :=
  ⟨p.slice⟩

/-- `SliceRevProducer::split_at` (lines 151-155, marked
`//FIXME FIXME FIXME - this probably needs to be updated`): splits the
underlying slice at `index`, taking no account of the reversal. -/
def SliceRevProducer.split_at {α : Type} (p : SliceRevProducer α) (i : Nat) :
    Option (SliceRevProducer α × SliceRevProducer α) :=
  if i ≤ p.slice.length then some (⟨p.slice.take i⟩, ⟨p.slice.drop i⟩) else none

/-- `SliceRevProducer::rev` (lines 157-161). -/
def SliceRevProducer.rev {α : Type} (p : SliceRevProducer α) : SliceProducer α :=
  ⟨p.slice⟩

/-- `IntoIterator for SliceProducer` (lines 164-171): the slice's sequential
iterator. -/
def SliceProducer.into_iter {α : Type} (p : SliceProducer α) : List α :=
  p.slice

/-- `IntoIterator for SliceRevProducer` (lines 173-180):
`self.slice.into_iter().rev()`. -/
def SliceRevProducer.into_iter {α : Type} (p : SliceRevProducer α) : List α :=
  p.slice.reverse

/-- The loop of Rust's `slice::chunks(c)` for `c > 0`: chunks of `c`
elements, the last possibly shorter.  The first argument is structural fuel;
`s.length` is enough fuel when `c > 0` because every step drops at least one
element. -/
def chunksGo {α : Type} (c : Nat) : Nat → List α → List (List α)
  | 0, _ => []
  | _ + 1, [] => []
  | fuel + 1, x :: xs => (x :: xs).take c :: chunksGo c fuel ((x :: xs).drop c)

/-- Rust's `slice.chunks(c)` as a list of chunks (meaningful for `c > 0`;
the producers below guard `c = 0`, where Rust's `chunks` panics). -/
def chunksList {α : Type} (c : Nat) (s : List α) : List (List α) :=
  chunksGo c s.length s

/-- `SliceChunksProducer` (lines 182-185). -/
structure SliceChunksProducer (α : Type) where
  chunk_size : Nat
  slice : List α
deriving DecidableEq

/-- `SliceChunksRevProducer` (lines 187-190). -/
structure SliceChunksRevProducer (α : Type) where
  chunk_size : Nat
  slice : List α
deriving DecidableEq

/-- `SliceChunksProducer::split_at` (lines 200-205): splits the underlying
slice at `elem_index = index * chunk_size`. -/
def SliceChunksProducer.split_at {α : Type} (p : SliceChunksProducer α) (i : Nat) :
    Option (SliceChunksProducer α × SliceChunksProducer α) :=
  let elem_index := i * p.chunk_size
  if elem_index ≤ p.slice.length then
    some (⟨p.chunk_size, p.slice.take elem_index⟩,
          ⟨p.chunk_size, p.slice.drop elem_index⟩)
  else
    none

/-- `SliceChunksProducer::rev` (lines 207-212). -/
def SliceChunksProducer.rev {α : Type} (p : SliceChunksProducer α) :
    SliceChunksRevProducer α :=
  ⟨p.chunk_size, p.slice⟩

/-- `SliceChunksRevProducer::split_at` (lines 223-229, marked
`//FIXME FIXME FIXME`): splits the underlying slice at
`elem_index = index * chunk_size`, taking no account of the reversal. -/
def SliceChunksRevProducer.split_at {α : Type} (p : SliceChunksRevProducer α) (i : Nat) :
    Option (SliceChunksRevProducer α × SliceChunksRevProducer α) :=
  let elem_index := i * p.chunk_size
  if elem_index ≤ p.slice.length then
    some (⟨p.chunk_size, p.slice.take elem_index⟩,
          ⟨p.chunk_size, p.slice.drop elem_index⟩)
  else
    none

/-- `SliceChunksRevProducer::rev` (lines 231-236). -/
def SliceChunksRevProducer.rev {α : Type} (p : SliceChunksRevProducer α) :
    SliceChunksProducer α :=
  ⟨p.chunk_size, p.slice⟩

/-- `IntoIterator for SliceChunksProducer` (lines 239-246):
`self.slice.chunks(self.chunk_size)`; `none` models the panic of Rust's
`chunks(0)`. -/
def SliceChunksProducer.into_iter {α : Type} (p : SliceChunksProducer α) :
    Option (List (List α)) :=
  if p.chunk_size = 0 then none else some (chunksList p.chunk_size p.slice)

/-- `IntoIterator for SliceChunksRevProducer` (lines 248-255):
`self.slice.chunks(self.chunk_size).rev()`. -/
def SliceChunksRevProducer.into_iter {α : Type} (p : SliceChunksRevProducer α) :
    Option (List (List α)) :=
  if p.chunk_size = 0 then none else some ((chunksList p.chunk_size p.slice).reverse)

/-- C8: for every slice `s` and index `i ≤ s.length`,
`SliceRevProducer::split_at(i)` splits the underlying slice at element index
`i` (and `SliceChunksRevProducer::split_at(j)` at element index
`j * chunk_size`) and returns reversed producers over the two underlying
halves; the left result therefore iterates the first `i` underlying elements
of `s` in reverse — which, as the final conjunct exhibits, differs in general
from the first `i` items of the reversed sequence. -/
theorem slice_rev_split_at_underlying {α : Type} (s : List α) (i : Nat)
    (hi : i ≤ s.length) (c j : Nat) (hj : j * c ≤ s.length) :
    (SliceRevProducer.mk s).split_at i =
      some (⟨s.take i⟩, ⟨s.drop i⟩) ∧
    (SliceRevProducer.mk (s.take i)).into_iter = (s.take i).reverse ∧
    (SliceChunksRevProducer.mk c s).split_at j =
      some (⟨c, s.take (j * c)⟩, ⟨c, s.drop (j * c)⟩) ∧
    (∃ (p : SliceRevProducer Nat) (k : Nat) (l r2 : SliceRevProducer Nat),
      p.split_at k = some (l, r2) ∧ l.into_iter ≠ p.into_iter.take k) := by
  refine ⟨?_, rfl, ?_, ?_⟩
  · show (if i ≤ s.length then
        some ((⟨s.take i⟩ : SliceRevProducer α), (⟨s.drop i⟩ : SliceRevProducer α))
      else none) = some (⟨s.take i⟩, ⟨s.drop i⟩)
    rw [if_pos hi]
  · show (if j * c ≤ s.length then
        some ((⟨c, s.take (j * c)⟩ : SliceChunksRevProducer α),
              (⟨c, s.drop (j * c)⟩ : SliceChunksRevProducer α))
      else none) = some (⟨c, s.take (j * c)⟩, ⟨c, s.drop (j * c)⟩)
    rw [if_pos hj]
  · exact ⟨⟨[0, 1]⟩, 1, ⟨[0]⟩, ⟨[1]⟩, by decide, by decide⟩

/-- Witness for C8: splitting the reversed producer over `[10, 20, 30]` at 1,
and the reversed chunks producer (chunk size 2) at chunk index 1. -/
theorem slice_rev_split_at_underlying_witness :
    (SliceRevProducer.mk [10, 20, 30]).split_at 1 =
      some (⟨[10]⟩, ⟨[20, 30]⟩) ∧
    (SliceRevProducer.mk ([10, 20, 30].take 1)).into_iter =
      ([10, 20, 30].take 1).reverse ∧
    (SliceChunksRevProducer.mk 2 [10, 20, 30]).split_at 1 =
      some (⟨2, [10, 20]⟩, ⟨2, [30]⟩) ∧
    (∃ (p : SliceRevProducer Nat) (k : Nat) (l r2 : SliceRevProducer Nat),
      p.split_at k = some (l, r2) ∧ l.into_iter ≠ p.into_iter.take k) := by
  have h := slice_rev_split_at_underlying ([10, 20, 30] : List Nat) 1
    (by decide) 2 1 (by decide)
  refine ⟨?_, h.2.1, ?_, h.2.2.2⟩
  · rw [h.1]
    decide
  · rw [h.2.2.1]
    decide

/-- C9: `rev` on each slice producer yields a producer whose sequential
iterator produces exactly the same items in the opposite order
(`List.reverse`), and `rev` of the reversed producer is the original
producer, which therefore iterates in the original order. -/
theorem producer_rev_involution {α : Type} (s : List α) (c : Nat) :
    (SliceProducer.mk s).rev.into_iter = (SliceProducer.mk s).into_iter.reverse ∧
    (SliceProducer.mk s).rev.rev = SliceProducer.mk s ∧
    (SliceRevProducer.mk s).rev.into_iter = (SliceRevProducer.mk s).into_iter.reverse ∧
    (SliceRevProducer.mk s).rev.rev = SliceRevProducer.mk s ∧
    (SliceChunksProducer.mk c s).rev.into_iter =
      ((SliceChunksProducer.mk c s).into_iter).map List.reverse ∧
    (SliceChunksProducer.mk c s).rev.rev = SliceChunksProducer.mk c s ∧
    (SliceChunksRevProducer.mk c s).rev.into_iter =
      ((SliceChunksRevProducer.mk c s).into_iter).map List.reverse ∧
    (SliceChunksRevProducer.mk c s).rev.rev = SliceChunksRevProducer.mk c s := by
  refine ⟨rfl, rfl, (List.reverse_reverse s).symm, rfl, ?_, rfl, ?_, rfl⟩
  · show (if c = 0 then none else some ((chunksList c s).reverse)) =
      Option.map List.reverse (if c = 0 then none else some (chunksList c s))
    by_cases hc : c = 0
    · rw [if_pos hc, if_pos hc]
      rfl
    · rw [if_neg hc, if_neg hc]
      rfl
  · show (if c = 0 then none else some (chunksList c s)) =
      Option.map List.reverse (if c = 0 then none else some ((chunksList c s).reverse))
    by_cases hc : c = 0
    · rw [if_pos hc, if_pos hc]
      rfl
    · rw [if_neg hc, if_neg hc]
      show some (chunksList c s) = some ((chunksList c s).reverse.reverse)
      rw [List.reverse_reverse]

/-- `ChunksIter` (lines 72-75). -/
structure ChunksIter (α : Type) where
  chunk_size : Nat
  slice : List α
deriving DecidableEq

/-- `ToParallelChunks::par_chunks` for slices (lines 31-33): stores
`chunk_size` and the slice with no validation of `chunk_size`. -/
def par_chunks {α : Type} (s : List α) (chunk_size : Nat) : ChunksIter α :=
  ⟨chunk_size, s⟩

/-- `ExactParallelIterator::len` for `ChunksIter` (lines 100-102):
`(self.slice.len() + (self.chunk_size - 1)) / self.chunk_size` in `usize`
arithmetic.  Modelled with release (wrapping) semantics: for
`chunk_size = 0`, `chunk_size - 1` wraps to `usizeMod - 1` and the division
by zero panics (`none`); in a debug build the unsigned subtraction itself
panics on underflow first — `len` panics for `chunk_size = 0` in both
profiles. -/
def ChunksIter.len {α : Type} (it : ChunksIter α) : Option Nat :=
  let cm1 := (it.chunk_size + (usizeMod - 1)) % usizeMod
  let numer := (it.slice.length + cm1) % usizeMod
  if it.chunk_size = 0 then none else some (numer / it.chunk_size)

/-- `BoundedParallelIterator::upper_bound` for `ChunksIter` (lines 88-90):
`ExactParallelIterator::len(self)`. -/
def ChunksIter.upper_bound {α : Type} (it : ChunksIter α) : Option Nat :=
  it.len

/-- C10: for chunk size `c > 0` (with the sum staying in `usize` range),
`ChunksIter::len` — and hence `upper_bound` — returns
`(s.length + (c - 1)) / c`, which is the ceiling of `s.length / c` (the two
inequalities pin it); `par_chunks` accepts `c = 0` without validation, and
there `len` (and `upper_bound`) panics: the unsigned subtraction wraps and
the division is by zero. -/
theorem par_chunks_len_ceiling {α : Type} (s : List α) (c : Nat) :
    (par_chunks s 0).chunk_size = 0 ∧
    (par_chunks s 0).len = none ∧
    (par_chunks s 0).upper_bound = none ∧
    (0 < c → s.length + c < usizeMod →
      (par_chunks s c).len = some ((s.length + (c - 1)) / c) ∧
      (par_chunks s c).upper_bound = some ((s.length + (c - 1)) / c) ∧
      s.length ≤ ((s.length + (c - 1)) / c) * c ∧
      ((s.length + (c - 1)) / c) * c < s.length + c) := by
  refine ⟨rfl, rfl, rfl, ?_⟩
  intro hc hb
  have hcU : c < usizeMod := by omega
  have hcm1 : (c + (usizeMod - 1)) % usizeMod = c - 1 := wrapDec_eq c hc hcU
  have hnum : (s.length + (c - 1)) % usizeMod = s.length + (c - 1) :=
    Nat.mod_eq_of_lt (by omega)
  have hlen : (par_chunks s c).len = some ((s.length + (c - 1)) / c) := by
    show (if c = 0 then none
      else some (((s.length + ((c + (usizeMod - 1)) % usizeMod)) % usizeMod) / c)) =
      some ((s.length + (c - 1)) / c)
    rw [if_neg (by omega), hcm1, hnum]
  have hdm := Nat.div_add_mod (s.length + (c - 1)) c
  have hml : (s.length + (c - 1)) % c < c := Nat.mod_lt _ hc
  refine ⟨hlen, hlen, ?_, ?_⟩
  · rw [Nat.mul_comm]
    omega
  · rw [Nat.mul_comm]
    omega

/-- Witness for C10: chunking `[1, 2, 3, 4, 5]` with chunk size 2 gives
length 3 = ⌈5/2⌉; with chunk size 0 `len` panics. -/
theorem par_chunks_len_ceiling_witness :
    (par_chunks ([1, 2, 3, 4, 5] : List Nat) 0).len = none ∧
    (par_chunks ([1, 2, 3, 4, 5] : List Nat) 2).len = some 3 ∧
    (par_chunks ([1, 2, 3, 4, 5] : List Nat) 2).upper_bound = some 3 := by
  have h := par_chunks_len_ceiling ([1, 2, 3, 4, 5] : List Nat) 2
  have h4 := h.2.2.2 (by decide) (by decide)
  refine ⟨h.2.1, ?_, ?_⟩
  · rw [h4.1]
    decide
  · rw [h4.2.1]
    decide

end Rayon
